import Mathlib

/-! Shallow embedding of the conftastic configuration loader
(src/conftastic/conf.py): a `Config` store merged from files of several
formats, and a `Loader` that resolves a file format, searches a list of
directories and merges every found file. Python dicts are modeled as
ordered association lists, the filesystem and the external format parsers
as an explicit `World`, and Python exceptions as `Except` errors. -/

/-- Python-style values stored in a configuration: strings, integers,
booleans, None, nested dicts (ordered) and lists. -/
inductive Value : Type
  | str (s : String)
  | int (n : Int)
  | bool (b : Bool)
  | none
  | dict (kvs : List (String × Value))
  | list (xs : List Value)

/-- Lookup in an ordered association list: the first binding wins, as in a
Python dict whose keys are unique. -/
def alistGet {α : Type} : List (String × α) → String → Option α
  | [], _ => Option.none
  | (k', v) :: rest, k => if k' = k then Option.some v else alistGet rest k

/-- Python `d[k] = v` on an ordered dict: replace the first binding of `k`
in place, else append a new binding at the end. -/
def dictSet {α : Type} : List (String × α) → String → α → List (String × α)
  | [], k, v => [(k, v)]
  | (k', v') :: rest, k, v =>
      if k' = k then (k', v) :: rest else (k', v') :: dictSet rest k v

/-- Python `dict.update(m)`: set every binding of `m`, in order. -/
def dictUpdate {α : Type} (d m : List (String × α)) : List (String × α) :=
  m.foldl (fun acc kv => dictSet acc kv.1 kv.2) d

/-- The value of the last binding of a key in an association list (what a
left fold of `dictSet` leaves at that key). -/
def lastLookup {α : Type} : List (String × α) → String → Option α
  | [], _ => Option.none
  | (k', v) :: rest, k =>
      match lastLookup rest k with
      | Option.some r => Option.some r
      | Option.none => if k' = k then Option.some v else Option.none

/-- `Config` extends `dict`; it is modeled as its underlying ordered
mapping from string keys to values. `Config(defaults)` seeds the store
with `defaults or {}`. -/
abbrev Config := List (String × Value)

/-- Python exceptions raised by the loader code. -/
inductive Err : Type
  | unknownFileType (msg : String)
  | noConfigFileFound (msg : String)
  | ioError (msg : String)
  | attributeError (msg : String)
  deriving DecidableEq

/-- The external world: filesystem existence plus the format libraries
(jstyleson, toml, yaml, configparser, dotenv) treated as black boxes that
turn the file at a path into a mapping. Parsers are modeled as total; the
parse error a malformed file would raise propagates uncaught in the source
and is outside every claim considered here. -/
structure World : Type where
  fsExists : String → Bool
  parseJson : String → List (String × Value)
  parseToml : String → List (String × Value)
  parseYaml : String → List (String × Value)
  iniParse : String → List (String × List (String × String))
  dotenvParse : Option String → List (String × Value)

/-- `Config.from_file`: when `silent` and the file is missing, return self
unchanged; otherwise `open` the file — raising an IOError when it is
missing — and `update` the store with the parsed mapping. -/
def Config.from_file (c : Config) (fexists : String → Bool)
    (load : String → List (String × Value)) (filename : String)
    (silent : Bool) : Except Err Config :=
  if silent && !(fexists filename) then Except.ok c
  else if !(fexists filename) then
    Except.error (Err.ioError ("No such file or directory: " ++ filename))
  else Except.ok (dictUpdate c (load filename))

/-- `Config.from_json`: `from_file` with the jstyleson loader. -/
def Config.from_json (c : Config) (w : World) (filename : String) (silent : Bool) :
    Except Err Config :=
  Config.from_file c w.fsExists w.parseJson filename silent

/-- `Config.from_toml`: `from_file` with the toml loader. -/
def Config.from_toml (c : Config) (w : World) (filename : String) (silent : Bool) :
    Except Err Config :=
  Config.from_file c w.fsExists w.parseToml filename silent

/-- `Config.from_yaml`: `from_file` with the yaml loader. -/
def Config.from_yaml (c : Config) (w : World) (filename : String) (silent : Bool) :
    Except Err Config :=
  Config.from_file c w.fsExists w.parseYaml filename silent

/-- `Config.from_ini`: `ConfigParser.read` silently ignores files that
cannot be opened (documented stdlib behavior), so a missing file yields no
sections; each parsed section becomes a top-level key bound to a flat
string-to-string dict. -/
def Config.from_ini (c : Config) (w : World) (filename : String) (silent : Bool) :
    Except Err Config :=
  if silent && !(w.fsExists filename) then Except.ok c
  else
    let sections := if w.fsExists filename then w.iniParse filename else []
    Except.ok (sections.foldl
      (fun acc sec =>
        dictSet acc sec.1 (Value.dict (sec.2.map (fun kv => (kv.1, Value.str kv.2))))) c)

/-- Python truthiness of an optional string: `None` and `""` are falsy. -/
def optTruthy : Option String → Bool
  | Option.none => false
  | Option.some s => if s = "" then false else true

/-- `Config.from_dotenv`: a truthy filename that does not exist raises
`IOError("File not found")` unless silent (then a no-op); otherwise the
store is updated with `dotenv_values(filename)`. -/
def Config.from_dotenv (c : Config) (w : World) (filename : Option String)
    (silent : Bool) : Except Err Config :=
  if optTruthy filename && !(w.fsExists (filename.getD "")) then
    if silent then Except.ok c
    else Except.error (Err.ioError "File not found")
  else Except.ok (dictUpdate c (w.dotenvParse filename))

/-- Python exceptions caught inside `get_recursive`. -/
inductive PyExc : Type
  | valueError
  | keyError
  | indexError
  | typeError
  deriving DecidableEq

/-- ASCII whitespace stripped by Python `int()` around a literal. -/
def isPySpace (c : Char) : Bool :=
  c = ' ' || c = '\t' || c = '\n' || c = '\r' || c.toNat = 11 || c.toNat = 12

/-- Digits of a base-10 Python int literal after the first one: a digit,
or an underscore followed by a digit. -/
def digitsCore : List Char → Nat → Option Nat
  | [], acc => Option.some acc
  | '_' :: c :: cs, acc =>
      if c.isDigit then digitsCore cs (acc * 10 + (c.toNat - 48)) else Option.none
  | c :: cs, acc =>
      if c.isDigit then digitsCore cs (acc * 10 + (c.toNat - 48)) else Option.none

/-- A nonempty digit run; the first character must be a digit (no leading
underscore). -/
def digitsRun : List Char → Option Nat
  | [] => Option.none
  | c :: cs => if c.isDigit then digitsCore cs (c.toNat - 48) else Option.none

/-- Python `int(s)` on a decimal string: optional surrounding whitespace,
an optional single sign, then digits with single underscores permitted
between digits. Returns `none` where Python raises ValueError. -/
def pyInt (s : String) : Option Int :=
  let cs := ((s.toList.dropWhile isPySpace).reverse.dropWhile isPySpace).reverse
  match cs with
  | '+' :: rest => (digitsRun rest).map (fun n => (Int.ofNat n : Int))
  | '-' :: rest => (digitsRun rest).map (fun n => (-(Int.ofNat n) : Int))
  | _ => (digitsRun cs).map (fun n => (Int.ofNat n : Int))

/-- Python list subscript: a negative index counts from the end; an index
still out of range raises IndexError (here `none`). -/
def pyListGet (xs : List Value) (i : Int) : Option Value :=
  let j := if i < 0 then i + (xs.length : Int) else i
  if j < 0 then Option.none else xs.get? j.toNat

/-- A Python subscript key as it occurs in `get_recursive`: the segment
string, or the integer it was converted to for a list node. -/
inductive PyKey : Type
  | s (k : String)
  | i (n : Int)

/-- Python subscript `data[key]` for the shapes reachable inside
`get_recursive` (dict with string key, list with int index); every other
combination raises. -/
def pySubscript : Value → PyKey → Except PyExc Value
  | Value.dict kvs, PyKey.s k =>
      match alistGet kvs k with
      | Option.some v => Except.ok v
      | Option.none => Except.error PyExc.keyError
  | Value.list xs, PyKey.i n =>
      match pyListGet xs n with
      | Option.some v => Except.ok v
      | Option.none => Except.error PyExc.indexError
  | _, _ => Except.error PyExc.typeError

/-- `isinstance(data, dict)`. -/
def Value.isDict : Value → Bool
  | Value.dict _ => true
  | _ => false

/-- `isinstance(data, list)`. -/
def Value.isList : Value → Bool
  | Value.list _ => true
  | _ => false

/-- Python `path in data` for a dict node. -/
def dictHasKey : Value → String → Bool
  | Value.dict kvs, k => (alistGet kvs k).isSome
  | _, _ => false

/-- The loop of `Config.get_recursive`, following the source's control
flow per segment: type check (neither dict nor list returns fallback),
dict membership check, `int(path)` conversion for a list node with its
ValueError caught, then the subscript with its exception caught. -/
def getRecAux (fallback : Value) : Value → List String → Except PyExc Value
  | data, [] => Except.ok data
  | data, path :: rest =>
    if !(Value.isDict data || Value.isList data) then Except.ok fallback
    else if Value.isDict data && !(dictHasKey data path) then Except.ok fallback
    else if Value.isList data then
      match pyInt path with
      | Option.none => Except.ok fallback
      | Option.some n =>
        match pySubscript data (PyKey.i n) with
        | Except.error _ => Except.ok fallback
        | Except.ok child => getRecAux fallback child rest
    else
      match pySubscript data (PyKey.s path) with
      | Except.error _ => Except.ok fallback
      | Except.ok child => getRecAux fallback child rest

/-- `Config.get_recursive`: traverse the segments starting from the store
itself (a dict). -/
def Config.get_recursive (c : Config) (setting : List String) (fallback : Value) :
    Except PyExc Value :=
  getRecAux fallback (Value.dict c) setting

/-- `Config.get`: the value at `name` when present, else the fallback. -/
def Config.get (c : Config) (name : String) (fallback : Value) : Value :=
  match alistGet c name with
  | Option.some v => v
  | Option.none => fallback

/-- Python `str.lower()` (ASCII case mapping, character by character). -/
def strLower (s : String) : String :=
  String.mk (s.toList.map Char.toLower)

/-- Python `s[n:]`: drop the first `n` characters. -/
def strDrop (s : String) (n : Nat) : String :=
  String.mk (s.toList.drop n)

/-- Whether the first character of `s` is `c`. -/
def strHeadIs (s : String) (c : Char) : Bool :=
  match s.toList with
  | x :: _ => x = c
  | [] => false

/-- Whether the last character of `s` is `c`. -/
def strLastIs (s : String) (c : Char) : Bool :=
  match s.toList.getLast? with
  | Option.some x => x = c
  | Option.none => false

/-- Index of the last occurrence of a character, accumulator form. -/
def rfindAux (c : Char) : List Char → Int → Int → Int
  | [], _, best => best
  | x :: xs, i, best => rfindAux c xs (i + 1) (if x = c then i else best)

/-- Python `str.rfind`: index of the last occurrence, or -1. -/
def strRfind (s : String) (c : Char) : Int :=
  rfindAux c s.toList 0 (-1)

/-- The extension part of `posixpath.splitext(p)` (it includes the dot):
the text from the last dot onward, unless every character of the final
path component before that dot is itself a dot — leading dots are part of
the root, so a hidden file such as ".env" has an empty extension. -/
def splitextExt (p : String) : String :=
  let cs := p.toList
  let sepIndex := strRfind p '/'
  let dotIndex := strRfind p '.'
  if sepIndex < dotIndex then
    let base := (cs.drop (sepIndex + 1).toNat).take (dotIndex - sepIndex - 1).toNat
    if base.any (fun ch => !(ch = '.')) then String.mk (cs.drop dotIndex.toNat)
    else ""
  else ""

/-- `os.path.join(a, b)` for one directory and one filename (posixpath):
an absolute second component discards the first; otherwise a slash is
inserted unless the directory is empty or already ends in one. -/
def pathJoin (a b : String) : String :=
  if strHeadIs b '/' then b
  else if a = "" || strLastIs a '/' then a ++ b
  else a ++ "/" ++ b

/-- The Loader's fixed format registry `_from_map`, mapping a format
identifier to the name of the Config merge method. -/
def fromMap : List (String × String) :=
  [("json", "from_json"), ("toml", "from_toml"), ("yaml", "from_yaml"),
   ("ini", "from_ini"), ("env", "from_dotenv")]

/-- A pending configuration build: target filename, optional explicit
filetype, ordered search directories, optional defaults. -/
structure Loader : Type where
  filename : String
  filetype : Option String
  paths : List String
  defaults : Option (List (String × Value))

/-- `Loader.set_defaults`: replace the defaults mapping. -/
def Loader.set_defaults (l : Loader) (defaults : Option (List (String × Value))) : Loader :=
  { l with defaults := defaults }

/-- `Loader.add_folder_path`: append a directory to the search list. -/
def Loader.add_folder_path (l : Loader) (path : String) : Loader :=
  { l with paths := l.paths ++ [path] }

/-- `Loader._get_filetype`: use the explicit filetype when truthy, else
derive it from the filename extension (raising when the extension is
empty); validate the lower-cased form against the registry but return the
original-case string. -/
def Loader.get_filetype (l : Loader) : Except Err String :=
  let derived : Except Err String :=
    let ext := splitextExt l.filename
    if ext.length < 1 then
      Except.error (Err.unknownFileType
        ("Could not find file type from file name: " ++ l.filename))
    else Except.ok (strDrop ext 1)
  let step : Except Err String :=
    match l.filetype with
    | Option.none => derived
    | Option.some ft => if ft = "" then derived else Except.ok ft
  match step with
  | Except.error e => Except.error e
  | Except.ok filetype =>
    if (alistGet fromMap (strLower filetype)).isNone then
      Except.error (Err.unknownFileType ("Unknown file type: " ++ filetype))
    else Except.ok filetype

/-- `getattr(config, method_name)(full_path)`: dispatch through the
registry's method name; `build` calls the merge with its default
`silent=False`. -/
def Config.dispatchMerge (c : Config) (w : World) (mname : String) (fullPath : String) :
    Except Err Config :=
  if mname = "from_json" then Config.from_json c w fullPath false
  else if mname = "from_toml" then Config.from_toml c w fullPath false
  else if mname = "from_yaml" then Config.from_yaml c w fullPath false
  else if mname = "from_ini" then Config.from_ini c w fullPath false
  else if mname = "from_dotenv" then Config.from_dotenv c w (Option.some fullPath) false
  else Except.error (Err.attributeError mname)

/-- The search loop of `Loader.build`: skip candidates that do not exist,
merge the rest in order, and track whether any file was found. -/
def Loader.buildSearch (w : World) (mname fn : String) :
    List String → Config → Bool → Except Err (Config × Bool)
  | [], config, found => Except.ok (config, found)
  | p :: rest, config, found =>
    let fullPath := pathJoin p fn
    if !(w.fsExists fullPath) then Loader.buildSearch w mname fn rest config found
    else
      match Config.dispatchMerge config w mname fullPath with
      | Except.error e => Except.error e
      | Except.ok c => Loader.buildSearch w mname fn rest c true

/-- `Loader.build`: resolve the filetype, re-check it against the registry
(case-sensitively, on the original-case string), seed a Config with the
defaults, merge every existing candidate in path order, and raise
`NoConfigFileFound` when nothing was found and not silent. -/
def Loader.build (l : Loader) (w : World) (silent : Bool) : Except Err Config :=
  match Loader.get_filetype l with
  | Except.error e => Except.error e
  | Except.ok filetype =>
    match alistGet fromMap filetype with
    | Option.none => Except.error (Err.unknownFileType ("Unknown file type: " ++ filetype))
    | Option.some mname =>
      match Loader.buildSearch w mname l.filename l.paths (l.defaults.getD []) false with
      | Except.error e => Except.error e
      | Except.ok (config, found) =>
        if !found && !silent then
          Except.error (Err.noConfigFileFound "No configration file found")
        else Except.ok config

/-- A world with no files at all; no parser is ever consulted. -/
def emptyWorld : World where
  fsExists := fun _ => false
  parseJson := fun _ => []
  parseToml := fun _ => []
  parseYaml := fun _ => []
  iniParse := fun _ => []
  dotenvParse := fun _ => []

/-- The "resolved format string" of format resolution: the truthy explicit
filetype when one was given, else the text after the dot of the filename's
splitext extension. -/
def resolvedFiletype (fn : String) (ftOpt : Option String) : String :=
  match ftOpt with
  | Option.none => strDrop (splitextExt fn) 1
  | Option.some ft => if ft = "" then strDrop (splitextExt fn) 1 else ft

/-- A world where the file "conf.json" is present in the directories "/a"
and "/b", whose contents assign different values to the key "K". -/
def twoFileWorld : World where
  fsExists := fun p =>
    if p = "/a/conf.json" then true else if p = "/b/conf.json" then true else false
  parseJson := fun p =>
    if p = "/a/conf.json" then [("K", Value.int 1)] else [("K", Value.int 2)]
  parseToml := fun _ => []
  parseYaml := fun _ => []
  iniParse := fun _ => []
  dotenvParse := fun _ => []

/-- The mapping that merging the file at `p` through the registry method
`mname` overlays onto the Config: the parsed mapping for the from_file
formats, the section-name-to-section-dict mapping for ini, and the dotenv
values for env. -/
def mergeContrib (w : World) (mname : String) (p : String) : List (String × Value) :=
  if mname = "from_json" then w.parseJson p
  else if mname = "from_toml" then w.parseToml p
  else if mname = "from_yaml" then w.parseYaml p
  else if mname = "from_ini" then
    (w.iniParse p).map
      (fun sec => (sec.1, Value.dict (sec.2.map (fun kv => (kv.1, Value.str kv.2)))))
  else if mname = "from_dotenv" then w.dotenvParse (Option.some p)
  else []

/-! ## Lemmas about ordered-dict operations and the build search loop -/

theorem alistGet_dictSet_self {α : Type} (d : List (String × α)) (k : String) (v : α) :
    alistGet (dictSet d k v) k = Option.some v := by
  induction d with
  | nil => simp [dictSet, alistGet]
  | cons hd tl ih =>
    obtain ⟨k', v'⟩ := hd
    by_cases h : k' = k
    · simp [dictSet, alistGet, h]
    · simp [dictSet, alistGet, h, ih]

theorem alistGet_dictSet_ne {α : Type} (d : List (String × α)) (k k' : String) (v : α)
    (h : k' ≠ k) : alistGet (dictSet d k v) k' = alistGet d k' := by
  induction d with
  | nil => simp [dictSet, alistGet, Ne.symm h]
  | cons hd tl ih =>
    obtain ⟨k'', v''⟩ := hd
    by_cases hk : k'' = k
    · subst hk
      simp [dictSet, alistGet, Ne.symm h]
    · simp [dictSet, alistGet, hk, ih]

theorem alistGet_dictUpdate {α : Type} (m : List (String × α)) :
    ∀ (c : List (String × α)) (k : String),
      alistGet (dictUpdate c m) k =
        match lastLookup m k with
        | Option.some v => Option.some v
        | Option.none => alistGet c k := by
  induction m with
  | nil => intro c k; rfl
  | cons hd tl ih =>
    intro c k
    obtain ⟨k', v⟩ := hd
    have step : dictUpdate c ((k', v) :: tl) = dictUpdate (dictSet c k' v) tl := rfl
    rw [step, ih]
    cases hlast : lastLookup tl k with
    | some r => simp [lastLookup, hlast]
    | none =>
      by_cases hk : k' = k
      · subst hk
        simp [lastLookup, hlast, alistGet_dictSet_self]
      · simp [lastLookup, hlast, hk,
          alistGet_dictSet_ne c k' k v (fun hh => hk hh.symm)]

theorem alistGet_eq_none_of_not_mem {α : Type} (m : List (String × α)) (k : String)
    (h : k ∉ m.map Prod.fst) : alistGet m k = Option.none := by
  induction m with
  | nil => rfl
  | cons hd tl ih =>
    obtain ⟨k', v⟩ := hd
    simp only [List.map_cons, List.mem_cons] at h
    push_neg at h
    have hne : ¬ k' = k := fun hh => h.1 hh.symm
    simp [alistGet, hne, ih h.2]

theorem lastLookup_eq_none {α : Type} (m : List (String × α)) (k : String)
    (h : alistGet m k = Option.none) : lastLookup m k = Option.none := by
  induction m with
  | nil => rfl
  | cons hd tl ih =>
    obtain ⟨k', v⟩ := hd
    by_cases hk : k' = k
    · simp [alistGet, hk] at h
    · simp only [alistGet, if_neg hk] at h
      simp [lastLookup, ih h, hk]

theorem lastLookup_eq_alistGet_of_nodup {α : Type} (m : List (String × α)) (k : String)
    (h : (m.map Prod.fst).Nodup) : lastLookup m k = alistGet m k := by
  induction m with
  | nil => rfl
  | cons hd tl ih =>
    obtain ⟨k', v⟩ := hd
    simp only [List.map_cons, List.nodup_cons] at h
    by_cases hk : k' = k
    · subst hk
      have htl : alistGet tl k' = Option.none :=
        alistGet_eq_none_of_not_mem tl k' h.1
      simp [lastLookup, alistGet, lastLookup_eq_none tl k' htl]
    · rw [show lastLookup ((k', v) :: tl) k =
          (match lastLookup tl k with
           | Option.some r => Option.some r
           | Option.none => if k' = k then Option.some v else Option.none) from rfl,
        ih h.2]
      cases hget : alistGet tl k with
      | some r => simp [alistGet, hk, hget]
      | none => simp [alistGet, hk, hget]

theorem buildSearch_no_files (w : World) (mname fn : String) :
    ∀ (paths : List String) (c : Config) (found : Bool),
      (∀ p ∈ paths, w.fsExists (pathJoin p fn) = false) →
      Loader.buildSearch w mname fn paths c found = Except.ok (c, found) := by
  intro paths
  induction paths with
  | nil => intro c found _; rfl
  | cons p rest ih =>
    intro c found h
    have hp : w.fsExists (pathJoin p fn) = false := h p (List.mem_cons_self p rest)
    have hrest : ∀ q ∈ rest, w.fsExists (pathJoin q fn) = false :=
      fun q hq => h q (List.mem_cons_of_mem p hq)
    simp [Loader.buildSearch, hp, ih c found hrest]

theorem fromMap_mname_cases (ft mname : String)
    (h : alistGet fromMap ft = Option.some mname) :
    mname = "from_json" ∨ mname = "from_toml" ∨ mname = "from_yaml" ∨
      mname = "from_ini" ∨ mname = "from_dotenv" := by
  simp only [fromMap, alistGet] at h
  split at h
  · exact Or.inl (Option.some.inj h).symm
  · split at h
    · exact Or.inr (Or.inl (Option.some.inj h).symm)
    · split at h
      · exact Or.inr (Or.inr (Or.inl (Option.some.inj h).symm))
      · split at h
        · exact Or.inr (Or.inr (Or.inr (Or.inl (Option.some.inj h).symm)))
        · split at h
          · exact Or.inr (Or.inr (Or.inr (Or.inr (Option.some.inj h).symm)))
          · exact absurd h (by simp)

theorem dispatchMerge_of_exists (c : Config) (w : World) (mname p : String)
    (hm : mname = "from_json" ∨ mname = "from_toml" ∨ mname = "from_yaml" ∨
      mname = "from_ini" ∨ mname = "from_dotenv")
    (hex : w.fsExists p = true) :
    Config.dispatchMerge c w mname p = Except.ok (dictUpdate c (mergeContrib w mname p)) := by
  rcases hm with h | h | h | h | h <;> subst h
  · simp [Config.dispatchMerge, Config.from_json, Config.from_file, mergeContrib, hex]
  · simp [Config.dispatchMerge, Config.from_toml, Config.from_file, mergeContrib, hex]
  · simp [Config.dispatchMerge, Config.from_yaml, Config.from_file, mergeContrib, hex]
  · simp [Config.dispatchMerge, Config.from_ini, mergeContrib, hex, dictUpdate,
      List.foldl_map]
  · simp [Config.dispatchMerge, Config.from_dotenv, mergeContrib, hex, optTruthy]

theorem strLength_lt_one_iff (s : String) : s.length < 1 ↔ s = "" := by
  cases s with
  | mk data =>
    cases data with
    | nil => simp [String.length]
    | cons c cs => simp [String.length, String.ext_iff]

theorem getRecAux_isOk (fallback : Value) :
    ∀ (setting : List String) (data : Value),
      (getRecAux fallback data setting).isOk = true := by
  intro setting
  induction setting with
  | nil => intro data; rfl
  | cons path rest ih =>
    intro data
    simp only [getRecAux]
    repeat' split
    all_goals first | rfl | exact ih _

/-! ## Claim theorems -/

/-- C1: the claim fails on the code, which contradicts its own
case-insensitive validation. With explicit filetype "JSON",
`_get_filetype` validates the lower-cased form and succeeds, but `build`'s
registry re-check uses the returned original-case string and raises
`UnknownFileType`; the same Loader spelled "json" builds fine. -/
theorem loader_build_case_sensitivity_bug :
    Loader.get_filetype ⟨"app.conf", Option.some "JSON", ["/etc/app"], Option.none⟩
        = Except.ok "JSON"
    ∧ Loader.build ⟨"app.conf", Option.some "JSON", ["/etc/app"], Option.none⟩ emptyWorld true
        = Except.error (Err.unknownFileType "Unknown file type: JSON")
    ∧ Loader.build ⟨"app.conf", Option.some "json", ["/etc/app"], Option.none⟩ emptyWorld true
        = Except.ok [] :=
  ⟨rfl, rfl, rfl⟩

/-- C2: when no candidate file exists in any search path and the filetype
resolves, `build(silent=false)` raises `NoConfigFileFound` while
`build(silent=true)` raises nothing and returns a Config equal to the
defaults mapping (empty when no defaults were set). -/
theorem build_no_candidate_files (l : Loader) (w : World) (ft mname : String)
    (hft : Loader.get_filetype l = Except.ok ft)
    (hm : alistGet fromMap ft = Option.some mname)
    (hnone : ∀ p ∈ l.paths, w.fsExists (pathJoin p l.filename) = false) :
    Loader.build l w false
        = Except.error (Err.noConfigFileFound "No configration file found")
    ∧ Loader.build l w true = Except.ok (l.defaults.getD []) := by
  have hsearch :=
    buildSearch_no_files w mname l.filename l.paths (l.defaults.getD []) false hnone
  constructor <;> simp [Loader.build, hft, hm, hsearch]

/-- C2 witness: a loader for "a.json" with one fileless search path and
defaults {k: 5}. -/
theorem build_no_candidate_files_witness :
    Loader.build ⟨"a.json", Option.none, ["/etc"], Option.some [("k", Value.int 5)]⟩
        emptyWorld false
        = Except.error (Err.noConfigFileFound "No configration file found")
    ∧ Loader.build ⟨"a.json", Option.none, ["/etc"], Option.some [("k", Value.int 5)]⟩
        emptyWorld true
        = Except.ok [("k", Value.int 5)] :=
  build_no_candidate_files _ emptyWorld "json" "from_json" rfl rfl (fun _ _ => rfl)

/-- C3: for every Loader whose search paths are [p1, p2] (the order
add_folder_path registered them) and whose format resolves to any registry
method, when the target file exists in both directories and the two files
assign differing values to a key K, build merges in registration order and
the resulting Config maps K to the value from p2's file. -/
theorem build_merge_order (l : Loader) (w : World) (p1 p2 ft mname : String)
    (K : String) (v1 v2 : Value)
    (hpaths : l.paths = [p1, p2])
    (hft : Loader.get_filetype l = Except.ok ft)
    (hm : alistGet fromMap ft = Option.some mname)
    (h1 : w.fsExists (pathJoin p1 l.filename) = true)
    (h2 : w.fsExists (pathJoin p2 l.filename) = true)
    (hK1 : lastLookup (mergeContrib w mname (pathJoin p1 l.filename)) K = Option.some v1)
    (hK2 : lastLookup (mergeContrib w mname (pathJoin p2 l.filename)) K = Option.some v2)
    (hne : v1 ≠ v2) :
    ∃ c, Loader.build l w false = Except.ok c ∧ alistGet c K = Option.some v2 := by
  have hcases := fromMap_mname_cases ft mname hm
  refine ⟨dictUpdate (dictUpdate (l.defaults.getD [])
      (mergeContrib w mname (pathJoin p1 l.filename)))
      (mergeContrib w mname (pathJoin p2 l.filename)), ?_, ?_⟩
  · have hd1 := dispatchMerge_of_exists (l.defaults.getD []) w mname
      (pathJoin p1 l.filename) hcases h1
    have hd2 := dispatchMerge_of_exists
      (dictUpdate (l.defaults.getD []) (mergeContrib w mname (pathJoin p1 l.filename)))
      w mname (pathJoin p2 l.filename) hcases h2
    have hsearch : Loader.buildSearch w mname l.filename [p1, p2] (l.defaults.getD []) false
        = Except.ok (dictUpdate (dictUpdate (l.defaults.getD [])
            (mergeContrib w mname (pathJoin p1 l.filename)))
            (mergeContrib w mname (pathJoin p2 l.filename)), true) := by
      simp [Loader.buildSearch, h1, h2, hd1, hd2]
    simp [Loader.build, hft, hm, hpaths, hsearch]
  · rw [alistGet_dictUpdate, hK2]

/-- C3 witness: two directories both holding conf.json, K mapped to 1 and
2 respectively; the built Config maps K to 2. -/
theorem build_merge_order_witness :
    ∃ c, Loader.build ⟨"conf.json", Option.some "json", ["/a", "/b"], Option.none⟩
        twoFileWorld false = Except.ok c
      ∧ alistGet c "K" = Option.some (Value.int 2) :=
  build_merge_order ⟨"conf.json", Option.some "json", ["/a", "/b"], Option.none⟩
    twoFileWorld "/a" "/b" "json" "from_json" "K" (Value.int 1) (Value.int 2)
    rfl rfl rfl rfl rfl rfl rfl (by simp)

/-- C4: merging a parsed mapping M into a Config through from_file leaves
every key of M bound to M's value and every key outside M unchanged. -/
theorem from_file_merge_frame (c : Config) (fexists : String → Bool)
    (load : String → List (String × Value)) (path : String) (silent : Bool)
    (hex : fexists path = true)
    (hnodup : ((load path).map Prod.fst).Nodup) :
    ∃ c', Config.from_file c fexists load path silent = Except.ok c'
      ∧ (∀ K v, alistGet (load path) K = Option.some v → alistGet c' K = Option.some v)
      ∧ (∀ K, alistGet (load path) K = Option.none → alistGet c' K = alistGet c K) := by
  refine ⟨dictUpdate c (load path), ?_, ?_, ?_⟩
  · simp [Config.from_file, hex]
  · intro K v hK
    rw [alistGet_dictUpdate, lastLookup_eq_alistGet_of_nodup _ _ hnodup, hK]
  · intro K hK
    rw [alistGet_dictUpdate, lastLookup_eq_alistGet_of_nodup _ _ hnodup, hK]

/-- C4 witness: merging {b: 9, c: 3} into {a: 1, b: 2} overwrites b, adds
c and leaves a unchanged. -/
theorem from_file_merge_frame_witness :
    ∃ c', Config.from_file [("a", Value.int 1), ("b", Value.int 2)] (fun _ => true)
        (fun _ => [("b", Value.int 9), ("c", Value.int 3)]) "f.json" false = Except.ok c'
      ∧ (∀ K v, alistGet [("b", Value.int 9), ("c", Value.int 3)] K = Option.some v →
          alistGet c' K = Option.some v)
      ∧ (∀ K, alistGet [("b", Value.int 9), ("c", Value.int 3)] K = Option.none →
          alistGet c' K = alistGet [("a", Value.int 1), ("b", Value.int 2)] K) :=
  from_file_merge_frame [("a", Value.int 1), ("b", Value.int 2)] (fun _ => true)
    (fun _ => [("b", Value.int 9), ("c", Value.int 3)]) "f.json" false rfl (by simp)

/-- C5: get_recursive never raises — every Python exception its body can
encounter (ValueError from int(), KeyError/IndexError/TypeError from the
subscript) is caught and degraded to the fallback, so the traversal always
returns a value. -/
theorem get_recursive_never_raises (c : Config) (setting : List String) (fallback : Value) :
    (Config.get_recursive c setting fallback).isOk = true :=
  getRecAux_isOk fallback setting (Value.dict c)

/-- C6 counterexample: the segment "-1" parses under Python int() and
indexes the non-empty list from its end, so get_recursive returns the last
element instead of the fallback the claim requires. -/
theorem get_recursive_negative_index_counterexample :
    Config.get_recursive [("a", Value.list [Value.int 10, Value.int 20])] ["a", "-1"]
        Value.none = Except.ok (Value.int 20)
    ∧ (Except.ok (Value.int 20) : Except PyExc Value) ≠ Except.ok Value.none :=
  ⟨rfl, by simp⟩

/-- C6 amended: at a sequence node the segment is converted with Python
int(), which accepts signed integers; only a segment that does not parse
as an integer at all makes the traversal return the fallback, while a
parsed negative index counts from the end of the list. -/
theorem get_recursive_list_segment_amended (xs : List Value) (seg : String)
    (rest : List String) (fallback : Value)
    (hparse : pyInt seg = Option.none) :
    getRecAux fallback (Value.list xs) (seg :: rest) = Except.ok fallback := by
  simp [getRecAux, Value.isDict, Value.isList, dictHasKey, hparse]

/-- C6 amended witness: the non-numeric segment "x" against a list yields
the fallback. -/
theorem get_recursive_list_segment_amended_witness :
    pyInt "x" = Option.none
    ∧ getRecAux (Value.int 7) (Value.list [Value.int 1]) ["x"] = Except.ok (Value.int 7) :=
  ⟨rfl, get_recursive_list_segment_amended [Value.int 1] "x" [] (Value.int 7) rfl⟩

/-- C7 counterexample: splitext treats the leading dot of ".env" as part
of the root, so the filename has no extension and the Loader raises
UnknownFileType instead of resolving the env format. -/
theorem dotfile_env_counterexample :
    Loader.get_filetype ⟨".env", Option.none, [], Option.none⟩
        = Except.error
            (Err.unknownFileType "Could not find file type from file name: .env")
    ∧ Loader.build ⟨".env", Option.none, [], Option.none⟩ emptyWorld true
        = Except.error
            (Err.unknownFileType "Could not find file type from file name: .env") :=
  ⟨rfl, rfl⟩

/-- C7 amended: for a filename with no explicit filetype whose splitext
extension is non-empty and whose text after the dot lower-cases to a
recognized identifier, format resolution succeeds with that text (in its
original case); a filename like ".env", whose only dot is the leading one,
has an empty splitext extension instead. -/
theorem extension_resolution_amended (fn : String) (paths : List String)
    (defaults : Option (List (String × Value))) (mname : String)
    (hext : splitextExt fn ≠ "")
    (hknown : alistGet fromMap (strLower (strDrop (splitextExt fn) 1)) = Option.some mname) :
    Loader.get_filetype ⟨fn, Option.none, paths, defaults⟩
        = Except.ok (strDrop (splitextExt fn) 1) := by
  have hlen : ¬ (splitextExt fn).length < 1 :=
    fun hlt => hext ((strLength_lt_one_iff _).mp hlt)
  simp [Loader.get_filetype, hlen, hknown]

/-- C7 amended witness: "conf.yaml" resolves to "yaml". -/
theorem extension_resolution_amended_witness :
    Loader.get_filetype ⟨"conf.yaml", Option.none, [], Option.none⟩ = Except.ok "yaml" :=
  extension_resolution_amended "conf.yaml" [] Option.none "from_yaml" (by decide) rfl

/-- C8: format resolution raises UnknownFileType exactly when no truthy
explicit filetype was given and the filename has no splitext extension, or
when the lower-cased resolved format string is not a registry key; in
particular "app.config" with no explicit filetype raises. -/
theorem unknown_filetype_iff (fn : String) (ftOpt : Option String)
    (paths : List String) (defaults : Option (List (String × Value))) :
    ((∃ msg, Loader.get_filetype ⟨fn, ftOpt, paths, defaults⟩
        = Except.error (Err.unknownFileType msg)) ↔
      ((optTruthy ftOpt = false ∧ splitextExt fn = "") ∨
        alistGet fromMap (strLower (resolvedFiletype fn ftOpt)) = Option.none))
    ∧ Loader.get_filetype ⟨"app.config", Option.none, [], Option.none⟩
        = Except.error (Err.unknownFileType "Unknown file type: config") := by
  refine ⟨?_, rfl⟩
  cases ftOpt with
  | none =>
    by_cases hlen : (splitextExt fn).length < 1
    · have hempty : splitextExt fn = "" := (strLength_lt_one_iff _).mp hlen
      simp [Loader.get_filetype, resolvedFiletype, optTruthy, hlen, hempty]
    · have hne : ¬ splitextExt fn = "" :=
        fun hh => hlen ((strLength_lt_one_iff _).mpr hh)
      cases hget : alistGet fromMap (strLower (strDrop (splitextExt fn) 1)) with
      | none => simp [Loader.get_filetype, resolvedFiletype, optTruthy, hlen, hne, hget]
      | some m => simp [Loader.get_filetype, resolvedFiletype, optTruthy, hlen, hne, hget]
  | some ft =>
    by_cases hft : ft = ""
    · subst hft
      by_cases hlen : (splitextExt fn).length < 1
      · have hempty : splitextExt fn = "" := (strLength_lt_one_iff _).mp hlen
        simp [Loader.get_filetype, resolvedFiletype, optTruthy, hlen, hempty]
      · have hne : ¬ splitextExt fn = "" :=
          fun hh => hlen ((strLength_lt_one_iff _).mpr hh)
        cases hget : alistGet fromMap (strLower (strDrop (splitextExt fn) 1)) with
        | none => simp [Loader.get_filetype, resolvedFiletype, optTruthy, hlen, hne, hget]
        | some m => simp [Loader.get_filetype, resolvedFiletype, optTruthy, hlen, hne, hget]
    · cases hget : alistGet fromMap (strLower ft) with
      | none => simp [Loader.get_filetype, resolvedFiletype, optTruthy, hft, hget]
      | some m => simp [Loader.get_filetype, resolvedFiletype, optTruthy, hft, hget]

/-- C9: from_dotenv with an explicitly given (truthy) filename that does
not exist raises IOError("File not found") when not silent, and is a
no-op returning the Config unchanged when silent. -/
theorem from_dotenv_missing_file (c : Config) (w : World) (fn : String)
    (hfn : fn ≠ "") (hmiss : w.fsExists fn = false) :
    Config.from_dotenv c w (Option.some fn) false
        = Except.error (Err.ioError "File not found")
    ∧ Config.from_dotenv c w (Option.some fn) true = Except.ok c := by
  constructor <;> simp [Config.from_dotenv, optTruthy, hfn, hmiss]

/-- C9 witness: the named dotenv file "missing.env" absent from an empty
world. -/
theorem from_dotenv_missing_file_witness :
    Config.from_dotenv [("x", Value.int 1)] emptyWorld (Option.some "missing.env") false
        = Except.error (Err.ioError "File not found")
    ∧ Config.from_dotenv [("x", Value.int 1)] emptyWorld (Option.some "missing.env") true
        = Except.ok [("x", Value.int 1)] :=
  from_dotenv_missing_file [("x", Value.int 1)] emptyWorld "missing.env" (by decide) rfl

/-- C10: from_ini on a missing path with silent=false raises nothing and
returns the Config unchanged — ConfigParser.read ignores unreadable files
— whereas the from_file path used by json/toml/yaml raises an IOError on
the same missing file. -/
theorem from_ini_missing_file_noop (c : Config) (w : World) (path : String)
    (hmiss : w.fsExists path = false) :
    Config.from_ini c w path false = Except.ok c
    ∧ Config.from_json c w path false
        = Except.error (Err.ioError ("No such file or directory: " ++ path)) := by
  constructor
  · simp [Config.from_ini, hmiss]
  · simp [Config.from_json, Config.from_file, hmiss]

/-- C10 witness: the missing file "app.ini" in an empty world. -/
theorem from_ini_missing_file_noop_witness :
    Config.from_ini [("k", Value.int 3)] emptyWorld "app.ini" false
        = Except.ok [("k", Value.int 3)]
    ∧ Config.from_json [("k", Value.int 3)] emptyWorld "app.ini" false
        = Except.error (Err.ioError ("No such file or directory: " ++ "app.ini")) :=
  from_ini_missing_file_noop [("k", Value.int 3)] emptyWorld "app.ini" rfl
